import Mathlib

/-!
# KeihiAI expense-report server — verification development

Shallow embedding of `keihi_server.py`: the receipt-processing pipeline
(classifier, amount extractor, extraction adapter, fallback synthesizer,
four report renderers, orchestrator, submission handler), with theorems
checking the specification's claims against the embedded code.

External effects (file staging, the vision API call, artifact writing) are
modelled as oracle parameters returning `Except String`/`Option` values;
everything else is translated directly from the source.
-/

namespace KeihiAI

/-- A parsed receipt record: the JSON dict produced by the extraction
adapter or the fallback synthesizer.  A Python dict key that may be absent
is an `Option` field (`none` = key absent); `Dict.get(k, default)` becomes
`Option.getD`. -/
structure ExpenseRecord where
  merchant : Option String
  date     : Option String
  amount   : Option Int
  category : Option String
  payment  : Option String
  notes    : Option String
deriving Repr, DecidableEq

/-- `r.get("金額", 0)` -/
def getAmt (r : ExpenseRecord) : Int := r.amount.getD 0

/-- `r.get("カテゴリ", "その他")` -/
def getCat (r : ExpenseRecord) : String := r.category.getD "その他"

/-! ## Classifier (`guess_category`, source lines 26–40) -/

/-- Python `kw in text` on lists of characters: contiguous-sublist test. -/
def listContains (hay pat : List Char) : Bool :=
  match hay with
  | [] => pat.isEmpty
  | _ :: t => pat.isPrefixOf hay || listContains t pat

/-- Python substring containment `pat in text` (case-sensitive). -/
def strContains (text pat : String) : Bool :=
  listContains text.data pat.data

/-- `CATEGORY_RULES`: the ordered category → keyword-list mapping
(a Python 3.7+ dict preserves insertion order). -/
def CATEGORY_RULES : List (String × List String) :=
  [ ("駐車場", ["パーキング", "駐車", "parking", "コインパーク"]),
    ("交通費", ["電車", "バス", "タクシー", "新幹線", "乗車", "IC"]),
    ("飲食費", ["レストラン", "カフェ", "食堂", "居酒屋", "ランチ", "コーヒー", "食事"]),
    ("宿泊費", ["ホテル", "旅館", "宿", "inn", "hotel"]),
    ("消耗品", ["コンビニ", "ドラッグ", "文具", "ローソン", "セブン", "ファミマ"]),
    ("通信費", ["ドコモ", "au", "ソフトバンク", "通信", "インターネット"]) ]

/-- Inner loop of `guess_category` over one ordered rule list. -/
def guessFrom (text : String) : List (String × List String) → String
  | [] => "その他"
  | (cat, kws) :: rest =>
      if kws.any (fun kw => strContains text kw) then cat else guessFrom text rest

/-- `guess_category(text)`: first category (rule-set order) one of whose
keywords occurs as a substring of `text`; catch-all `"その他"` otherwise. -/
def guess_category (text : String) : String :=
  guessFrom text CATEGORY_RULES

/-! ## Amount extractor (`extract_amount`, source lines 42–53)

The four regexes share the shape
`LIT [^\d]* (\d[\d,]+) 円` (with `LIT` empty for the last one).
`re.search` semantics for this shape: leftmost start position wins; the
greedy `[^\d]*` necessarily stops at the first digit (it cannot consume a
digit and the group must start with one); the greedy `[\d,]+` necessarily
consumes the maximal run (backtracking cannot help since `円` matches no
`[\d,]` character). -/

/-- A character matched by `[\d,]`. -/
def isAmtChar (c : Char) : Bool := c.isDigit || c == ','

/-- Attempt `(\d[\d,]+)円` at exactly this position; return the captured
group.  The group is the digit plus the maximal nonempty `[\d,]` run; the
next character must be `円`. -/
def matchGroup : List Char → Option (List Char)
  | [] => none
  | c :: rest =>
      if c.isDigit then
        let run := rest.takeWhile isAmtChar
        let after := rest.dropWhile isAmtChar
        if !run.isEmpty && after.head? == some '円' then some (c :: run) else none
      else none

/-- Attempt `LIT[^\d]*(\d[\d,]+)円` at exactly this position. -/
def matchLabeledAt (lit : List Char) (s : List Char) : Option (List Char) :=
  if lit.isPrefixOf s then
    matchGroup ((s.drop lit.length).dropWhile (fun c => !c.isDigit))
  else none

/-- `re.search`: try the position matcher at each start position, left to
right, returning the first captured group. -/
def searchAux (m : List Char → Option (List Char)) : List Char → Option (List Char)
  | [] => m []
  | c :: t =>
      match m (c :: t) with
      | some g => some g
      | none => searchAux m t

/-- `int(group.replace(',', ''))` for a group of digits and commas. -/
def parseAmt (g : List Char) : Int :=
  ((g.filter (fun c => c != ',')).foldl (fun n c => n * 10 + (c.toNat - 48)) 0 : Nat)

/-- The four patterns of `extract_amount`, in source order:
`領収額…`, `現金…`, `合計…`, then the bare `(\d[\d,]+)円`. -/
def amountPatterns : List (List Char → Option (List Char)) :=
  [ matchLabeledAt "領収額".data,
    matchLabeledAt "現金".data,
    matchLabeledAt "合計".data,
    matchGroup ]

/-- The `for p in patterns` loop body of `extract_amount`. -/
def extractLoop (s : List Char) : List (List Char → Option (List Char)) → Int
  | [] => 0
  | p :: ps =>
      match searchAux p s with
      | some g => parseAmt g
      | none => extractLoop s ps

/-- `extract_amount(text)`: first matching pattern's captured amount with
commas stripped, else `0`. -/
def extract_amount (text : String) : Int :=
  extractLoop text.data amountPatterns

/-! ## Fallback synthesizer (`fallback_read`, source lines 91–101) -/

/-- Python `s.replace(pat, rep)` for nonempty `pat`: left-to-right,
non-overlapping.  Fuel-based so the kernel can evaluate it; each step
consumes at least one character, so `s.length` fuel suffices. -/
def replaceAllAux (pat rep : List Char) : Nat → List Char → List Char
  | _, [] => []
  | 0, s => s
  | fuel + 1, c :: t =>
      if !pat.isEmpty && pat.isPrefixOf (c :: t) then
        rep ++ replaceAllAux pat rep fuel (t.drop (pat.length - 1))
      else c :: replaceAllAux pat rep fuel t

/-- Python `s.replace(pat, rep)`. -/
def pyReplace (s pat rep : String) : String :=
  String.mk (replaceAllAux pat.data rep.data s.data.length s.data)

/-- `fallback_read(image_path, filename)`: fixed sentinel record; the
merchant is the filename with every occurrence of `".jpg"`, `".png"`,
`".pdf"` removed (Python `str.replace` replaces all occurrences).  The
`image_path` argument is unused by the source. -/
def fallback_read (_image_path : String) (filename : String) : ExpenseRecord :=
  { merchant := some (pyReplace (pyReplace (pyReplace filename ".jpg" "") ".png" "") ".pdf" "")
    date     := some "2025/10/01"
    amount   := some 1000
    category := some "その他"
    payment  := some "現金"
    notes    := some "手動確認推奨" }

/-! ## Report renderers (source lines 116–296)

Each renderer is modelled as a pure function returning the rows it writes
to its artifact plus the `(total, len(cats))` pair it returns; the actual
file write is an I/O effect handled by the orchestrator's oracle. -/

/-- One cell written by a renderer (Python rows mix strings and ints). -/
inductive Cell where
  | str (s : String)
  | num (n : Int)
deriving Repr, DecidableEq

/-- `cats.add(c)` on a Python set, modelled as a duplicate-free list in
insertion order (only its size is ever observed). -/
def pyInsert (s : List String) (c : String) : List String :=
  if c ∈ s then s else s ++ [c]

/-- Rows plus the `(total, len(cats))` pair a renderer returns. -/
structure RenderResult where
  rows : List (List Cell)
  total : Int
  catCount : Nat
deriving Repr, DecidableEq

/-- `FREEE_ACCOUNT_MAP` (order-preserving dict). -/
def FREEE_ACCOUNT_MAP : List (String × String) :=
  [ ("駐車場", "旅費交通費"), ("交通費", "旅費交通費"), ("飲食費", "交際費"),
    ("宿泊費", "旅費交通費"), ("消耗品", "消耗品費"), ("通信費", "通信費"),
    ("その他", "雑費") ]

/-- `FREEE_ACCOUNT_MAP.get(cat, "雑費")`. -/
def freeeAccount (cat : String) : String :=
  ((FREEE_ACCOUNT_MAP.find? (fun p => p.1 == cat)).map Prod.snd).getD "雑費"

/-- One data row of `make_freee_csv` (source lines 128–138). -/
def freeeRow (applicant : String) (r : ExpenseRecord) : List Cell :=
  let cat := getCat r
  let account := freeeAccount cat
  let amt := getAmt r
  let date := pyReplace (r.date.getD "") "-" "/"
  let memo := (r.merchant.getD "") ++ (if applicant ≠ "" then "（" ++ applicant ++ "）" else "")
  [.str date, .str account, .str "", .str "課税仕入 10%", .str (toString amt),
   .str "現金", .str "", .str "", .str (toString amt),
   .str memo, .str "", .str "", .str "", .str ""]

/-- The `for r in receipts` loop of `make_freee_csv`: builds rows and
accumulates `total += amt; cats.add(cat)`. -/
def freeeLoop (applicant : String) :
    List ExpenseRecord → Int → List String → List (List Cell) × Int × List String
  | [], total, cats => ([], total, cats)
  | r :: rest, total, cats =>
      let res := freeeLoop applicant rest (total + getAmt r) (pyInsert cats (getCat r))
      (freeeRow applicant r :: res.1, res.2.1, res.2.2)

/-- `make_freee_csv(receipts, month, applicant)` (source lines 116–141). -/
def make_freee_csv (receipts : List ExpenseRecord) (_month applicant : String) : RenderResult :=
  let header : List Cell :=
    [.str "発生日", .str "借方勘定科目", .str "借方補助科目", .str "借方税区分", .str "借方金額",
     .str "貸方勘定科目", .str "貸方補助科目", .str "貸方税区分", .str "貸方金額",
     .str "摘要", .str "タグ", .str "メモ", .str "決済期日", .str "口座"]
  let res := freeeLoop applicant receipts 0 []
  { rows := header :: res.1, total := res.2.1, catCount := res.2.2.length }

/-- One data row of `make_csv` (source line 151); note the category cell
defaults to `""` while the aggregate set uses default `"その他"`. -/
def csvRow (i : Nat) (r : ExpenseRecord) : List Cell :=
  [.num i, .str (r.merchant.getD ""), .str (r.date.getD ""), .str (r.category.getD ""),
   .num (getAmt r), .str (r.payment.getD "現金"), .str (r.notes.getD "")]

/-- The `for i, r in enumerate(receipts, 1)` loop of `make_csv`. -/
def csvLoop : List ExpenseRecord → Nat → Int → List String → List (List Cell) × Int × List String
  | [], _, total, cats => ([], total, cats)
  | r :: rest, i, total, cats =>
      let res := csvLoop rest (i + 1) (total + getAmt r) (pyInsert cats (getCat r))
      (csvRow i r :: res.1, res.2.1, res.2.2)

/-- `make_csv(receipts, month, applicant)` (source lines 143–156). -/
def make_csv (receipts : List ExpenseRecord) (_month _applicant : String) : RenderResult :=
  let header : List Cell :=
    [.str "No.", .str "店名", .str "日付", .str "カテゴリ", .str "金額（円）", .str "支払方法", .str "備考"]
  let res := csvLoop receipts 1 0 []
  { rows := header :: res.1 ++ [[.str "合計", .str "", .str "", .str "", .num res.2.1, .str "", .str ""]],
    total := res.2.1, catCount := res.2.2.length }

/-- Python `f"{n:,}"`: thousands separators, reversed-digit helper. -/
def commaRevAux : List Char → Nat → List Char
  | [], _ => []
  | c :: t, k => if k == 3 then ',' :: c :: commaRevAux t 1 else c :: commaRevAux t (k + 1)

/-- Python `f"{n:,}"` for an integer. -/
def pyCommaFmt (n : Int) : String :=
  (if n < 0 then "-" else "") ++ String.mk ((commaRevAux (toString n.natAbs).data.reverse 0).reverse)

/-- One data row of `make_pdf` (source lines 180–181): six columns, the
amount formatted with thousands separators. -/
def pdfRow (i : Nat) (r : ExpenseRecord) : List Cell :=
  [.str (toString i), .str (r.merchant.getD ""), .str (r.date.getD ""), .str (r.category.getD ""),
   .str (pyCommaFmt (getAmt r)), .str (r.payment.getD "現金")]

/-- The `for i, r in enumerate(receipts, 1)` loop of `make_pdf`. -/
def pdfLoop : List ExpenseRecord → Nat → Int → List String → List (List Cell) × Int × List String
  | [], _, total, cats => ([], total, cats)
  | r :: rest, i, total, cats =>
      let res := pdfLoop rest (i + 1) (total + getAmt r) (pyInsert cats (getCat r))
      (pdfRow i r :: res.1, res.2.1, res.2.2)

/-- `make_pdf(receipts, month, applicant)` (source lines 158–200). -/
def make_pdf (receipts : List ExpenseRecord) (_month _applicant : String) : RenderResult :=
  let header : List Cell :=
    [.str "No.", .str "店名", .str "日付", .str "カテゴリ", .str "金額（円）", .str "支払方法"]
  let res := pdfLoop receipts 1 0 []
  { rows := header :: res.1 ++ [[.str "合計", .str "", .str "", .str "", .str (pyCommaFmt res.2.1), .str ""]],
    total := res.2.1, catCount := res.2.2.length }

/-- One data row of `make_excel` (source line 236). -/
def excelRow (i : Nat) (r : ExpenseRecord) : List Cell :=
  [.num i, .str (r.merchant.getD ""), .str (r.date.getD ""), .str (r.category.getD ""),
   .num (getAmt r), .str (r.payment.getD "現金"), .str (r.notes.getD "")]

/-- The data loop of `make_excel` (source lines 232–246): rows and `total`. -/
def excelLoop : List ExpenseRecord → Nat → Int → List (List Cell) × Int
  | [], _, total => ([], total)
  | r :: rest, i, total =>
      let res := excelLoop rest (i + 1) (total + getAmt r)
      (excelRow i r :: res.1, res.2)

/-- `cat_totals[cat] = cat_totals.get(cat, 0) + amt` on an insertion-ordered
dict, modelled as an association list: update in place if present, else
append at the end. -/
def updateA (m : List (String × Int)) (k : String) (v : Int) : List (String × Int) :=
  if m.any (fun p => p.1 == k) then
    m.map (fun p => if p.1 == k then (p.1, p.2 + v) else p)
  else m ++ [(k, 0 + v)]

/-- The `cat_totals` loop of `make_excel` (source lines 271–274). -/
def catTotalsLoop : List ExpenseRecord → List (String × Int) → List (String × Int)
  | [], m => m
  | r :: rest, m => catTotalsLoop rest (updateA m (getCat r) (getAmt r))

/-- Output of `make_excel`: main-sheet data rows, category-summary sheet
rows, and the returned `(total, len(cat_totals))`. -/
structure ExcelResult where
  bodyRows : List (List Cell)
  catSheet : List (String × Int)
  total : Int
  catCount : Nat
deriving Repr, DecidableEq

/-- `make_excel(receipts, month, applicant)` (source lines 202–296). -/
def make_excel (receipts : List ExpenseRecord) (_month _applicant : String) : ExcelResult :=
  let res := excelLoop receipts 1 0
  let cat_totals := catTotalsLoop receipts []
  { bodyRows := res.1, catSheet := cat_totals, total := res.2, catCount := cat_totals.length }

/-! ## Specification-side aggregate definitions (for the refinement claim) -/

/-- Spec: the sum of the `amount` field over all records. -/
def spec_total (rs : List ExpenseRecord) : Int := (rs.map getAmt).sum

/-- Spec: the number of unique category values present. -/
def spec_distinct_categories (rs : List ExpenseRecord) : Nat :=
  (rs.map getCat).toFinset.card

/-! ## Extraction adapter (`read_receipt_with_claude`, source lines 59–89)

The body of the `try:` block (image I/O, network call, JSON search and
parse) is an oracle: `.error e` is any exception raised inside it,
`.ok none` is a response with no parsable JSON object, `.ok (some r)` a
parsed record. -/

/-- `read_receipt_with_claude`: returns `none` immediately when the API key
is absent or empty (Python falsiness) without consulting the body; converts
every body exception to `none`; never raises. -/
def read_receipt_with_claude (apiKey : Option String)
    (body : Except String (Option ExpenseRecord)) : Option ExpenseRecord :=
  match apiKey with
  | none => none
  | some k =>
      if k = "" then none
      else match body with
        | .ok r => r
        | .error _ => none

/-! ## Pipeline orchestrator (`process_files`, lines 298–343; `analyze`, 349–358) -/

/-- The shared mutable `status` dict. `format` is `Option` because the
initial dict literal has no `"format"` key (`status.get("format","excel")`
becomes `format.getD "excel"`). -/
structure JobStatus where
  step : Nat
  done : Bool
  error : Option String
  count : Nat
  total : Int
  categories : Nat
  format : Option String
deriving Repr, DecidableEq

/-- The zero-state dict literal of lines 22 and 352. -/
def initStatus : JobStatus :=
  { step := 0, done := false, error := none, count := 0, total := 0,
    categories := 0, format := none }

/-- The `analyze` handler's effect on the shared status: unconditionally
replace it with the zero-state, then set `format` from the request
(default `"excel"`); the prior status is ignored. -/
def analyze (_prior : JobStatus) (fmtParam : Option String) : JobStatus :=
  { initStatus with format := some (fmtParam.getD "excel") }

/-- Python truthiness of the adapter result: `None` and the empty dict are
falsy; a dict with at least one key is truthy. -/
def isEmptyRecord (r : ExpenseRecord) : Bool :=
  r.merchant.isNone && r.date.isNone && r.amount.isNone &&
  r.category.isNone && r.payment.isNone && r.notes.isNone

/-- `if not result` on the adapter result. -/
def recFalsy : Option ExpenseRecord → Bool
  | none => true
  | some r => isEmptyRecord r

/-- Step 3 body (lines 320–323): overwrite the category with
`guess_category(店名 + 備考)` when it is missing, empty, or the catch-all. -/
def classifyStep (r : ExpenseRecord) : ExpenseRecord :=
  let needs := match r.category with
    | none => true
    | some c => c == "" || c == "その他"
  if needs then
    { r with category := some (guess_category ((r.merchant.getD "") ++ (r.notes.getD ""))) }
  else r

/-- Oracles for the orchestrator's external effects: per-file staging
write, the extraction adapter's outcome per file, and the renderer's
artifact-write outcome per format. -/
structure ProcEnv where
  stageFile : String → ByteArray → Except String Unit
  extract : String → Option ExpenseRecord
  renderIO : String → Except String Unit

/-- The Step 1 staging loop (lines 305–309): first write failure aborts. -/
def stageAll (env : ProcEnv) : List (String × ByteArray) → Except String Unit
  | [] => .ok ()
  | (n, d) :: rest =>
      match env.stageFile n d with
      | .error e => .error e
      | .ok _ => stageAll env rest

/-- Step 2 body per file (lines 312–317): use the adapter result unless it
is falsy, in which case synthesize via `fallback_read`. -/
def resolveRecord (env : ProcEnv) (name : String) : ExpenseRecord :=
  match env.extract name with
  | none => fallback_read ("uploads_temp/" ++ name) name
  | some r => if isEmptyRecord r then fallback_read ("uploads_temp/" ++ name) name else r

/-- The record list after Step 2: one record per uploaded file. -/
def pipelineRecords (env : ProcEnv) (files : List (String × ByteArray)) : List ExpenseRecord :=
  files.map (fun f => resolveRecord env f.1)

/-- Step 5 dispatch (lines 330–338): the selected renderer's returned
`(total, len(cats))`. -/
def chooseRenderAgg (fmt : String) (receipts : List ExpenseRecord)
    (month applicant : String) : Int × Nat :=
  if fmt == "csv" then
    let r := make_csv receipts month applicant; (r.total, r.catCount)
  else if fmt == "freee" then
    let r := make_freee_csv receipts month applicant; (r.total, r.catCount)
  else if fmt == "pdf" then
    let r := make_pdf receipts month applicant; (r.total, r.catCount)
  else
    let r := make_excel receipts month applicant; (r.total, r.catCount)

/-- `process_files(files_data, month, applicant)` acting on the shared
status: the `try:` body with each step's status mutation, and the
`except:` clause writing the exception message into `error`. -/
def process_files (env : ProcEnv) (files_data : List (String × ByteArray))
    (month applicant : String) (st : JobStatus) : JobStatus :=
  let s1 := { st with step := 1 }
  match stageAll env files_data with
  | .error e => { s1 with error := some e }
  | .ok _ =>
    let s2 := { s1 with step := 2 }
    let receipts := pipelineRecords env files_data
    let s3 := { s2 with step := 3 }
    let receipts := receipts.map classifyStep
    let s4 := { s3 with step := 4 }
    let s5 := { s4 with step := 5 }
    let fmt := s5.format.getD "excel"
    match env.renderIO fmt with
    | .error e => { s5 with error := some e }
    | .ok _ =>
      let agg := chooseRenderAgg fmt receipts month applicant
      { s5 with done := true, count := receipts.length, total := agg.1, categories := agg.2 }

/-! ## Helper lemmas: set/dict aggregation -/

lemma pyInsert_toFinset (s : List String) (c : String) :
    (pyInsert s c).toFinset = insert c s.toFinset := by
  unfold pyInsert
  split_ifs with h
  · exact (Finset.insert_eq_self.mpr (List.mem_toFinset.mpr h)).symm
  · ext x
    simp [or_comm]

lemma pyInsert_nodup (s : List String) (c : String) (h : s.Nodup) :
    (pyInsert s c).Nodup := by
  unfold pyInsert
  split_ifs with hc
  · exact h
  · simp [List.nodup_append, h, hc]

lemma foldl_pyInsert_toFinset (l : List String) :
    ∀ acc, (List.foldl pyInsert acc l).toFinset = acc.toFinset ∪ l.toFinset := by
  induction l with
  | nil => intro acc; simp
  | cons c t ih =>
      intro acc
      rw [List.foldl_cons, ih, pyInsert_toFinset]
      ext x
      simp only [Finset.mem_union, Finset.mem_insert, List.mem_toFinset, List.mem_cons]
      tauto

lemma foldl_pyInsert_nodup (l : List String) :
    ∀ acc, acc.Nodup → (List.foldl pyInsert acc l).Nodup := by
  induction l with
  | nil => intro acc h; exact h
  | cons c t ih => intro acc h; exact ih _ (pyInsert_nodup _ _ h)

lemma foldl_pyInsert_length (l : List String) :
    (List.foldl pyInsert [] l).length = l.toFinset.card := by
  have h1 := foldl_pyInsert_toFinset l []
  have h2 := foldl_pyInsert_nodup l [] (by simp)
  rw [← List.toFinset_card_of_nodup h2, h1]
  simp

/-! Helper lemmas: each renderer loop's aggregate components. -/

lemma csvLoop_agg (rs : List ExpenseRecord) :
    ∀ (i : Nat) (total : Int) (cats : List String),
      (csvLoop rs i total cats).2 =
        (total + (rs.map getAmt).sum, List.foldl pyInsert cats (rs.map getCat)) := by
  induction rs with
  | nil => intro i total cats; simp [csvLoop]
  | cons r rest ih =>
      intro i total cats
      simp [csvLoop, ih, add_assoc]

lemma pdfLoop_agg (rs : List ExpenseRecord) :
    ∀ (i : Nat) (total : Int) (cats : List String),
      (pdfLoop rs i total cats).2 =
        (total + (rs.map getAmt).sum, List.foldl pyInsert cats (rs.map getCat)) := by
  induction rs with
  | nil => intro i total cats; simp [pdfLoop]
  | cons r rest ih =>
      intro i total cats
      simp [pdfLoop, ih, add_assoc]

lemma freeeLoop_agg (applicant : String) (rs : List ExpenseRecord) :
    ∀ (total : Int) (cats : List String),
      (freeeLoop applicant rs total cats).2 =
        (total + (rs.map getAmt).sum, List.foldl pyInsert cats (rs.map getCat)) := by
  induction rs with
  | nil => intro total cats; simp [freeeLoop]
  | cons r rest ih =>
      intro total cats
      simp [freeeLoop, ih, add_assoc]

lemma excelLoop_agg (rs : List ExpenseRecord) :
    ∀ (i : Nat) (total : Int),
      (excelLoop rs i total).2 = total + (rs.map getAmt).sum := by
  induction rs with
  | nil => intro i total; simp [excelLoop]
  | cons r rest ih =>
      intro i total
      simp [excelLoop, ih, add_assoc]

lemma updateA_keys (m : List (String × Int)) (k : String) (v : Int) :
    (updateA m k v).map Prod.fst = pyInsert (m.map Prod.fst) k := by
  unfold updateA pyInsert
  by_cases h : k ∈ m.map Prod.fst
  · have hany : m.any (fun p => p.1 == k) = true := by
      simp only [List.any_eq_true]
      obtain ⟨p, hp, hpk⟩ := List.mem_map.mp h
      exact ⟨p, hp, by simp [hpk]⟩
    rw [if_pos hany, if_pos h]
    rw [List.map_map]
    apply List.map_congr_left
    intro p _
    by_cases hpk : p.1 = k <;> simp [hpk]
  · have hany : m.any (fun p => p.1 == k) = false := by
      simp only [List.any_eq_false]
      intro p hp
      simp only [beq_iff_eq]
      intro hpk
      exact h (List.mem_map.mpr ⟨p, hp, hpk⟩)
    rw [if_neg (by simp [hany]), if_neg h]
    simp

lemma catTotalsLoop_keys (rs : List ExpenseRecord) :
    ∀ m : List (String × Int),
      (catTotalsLoop rs m).map Prod.fst =
        List.foldl pyInsert (m.map Prod.fst) (rs.map getCat) := by
  induction rs with
  | nil => intro m; simp [catTotalsLoop]
  | cons r rest ih =>
      intro m
      simp only [catTotalsLoop, List.map_cons, List.foldl_cons]
      rw [ih, updateA_keys]

lemma catTotalsLoop_length (rs : List ExpenseRecord) :
    (catTotalsLoop rs []).length = spec_distinct_categories rs := by
  have h := catTotalsLoop_keys rs []
  have hlen : (catTotalsLoop rs []).length = ((catTotalsLoop rs []).map Prod.fst).length := by
    simp
  rw [hlen, h]
  simp only [List.map_nil]
  exact foldl_pyInsert_length _

/-- C1: each of the four renderers (make_excel, make_csv, make_freee_csv,
make_pdf) returns `total` equal to the sum of the `amount` field over all
records and `distinct_category_count` equal to the number of unique
category values present, and these aggregates are identical across all
four renderers for the same input list. -/
theorem renderers_aggregates_agree (rs : List ExpenseRecord) (month applicant : String) :
    ((make_csv rs month applicant).total, (make_csv rs month applicant).catCount)
        = (spec_total rs, spec_distinct_categories rs) ∧
    ((make_freee_csv rs month applicant).total, (make_freee_csv rs month applicant).catCount)
        = (spec_total rs, spec_distinct_categories rs) ∧
    ((make_pdf rs month applicant).total, (make_pdf rs month applicant).catCount)
        = (spec_total rs, spec_distinct_categories rs) ∧
    ((make_excel rs month applicant).total, (make_excel rs month applicant).catCount)
        = (spec_total rs, spec_distinct_categories rs) := by
  refine ⟨?_, ?_, ?_, ?_⟩
  · simp [make_csv, csvLoop_agg, spec_total, spec_distinct_categories,
      foldl_pyInsert_length]
  · simp [make_freee_csv, freeeLoop_agg, spec_total, spec_distinct_categories,
      foldl_pyInsert_length]
  · simp [make_pdf, pdfLoop_agg, spec_total, spec_distinct_categories,
      foldl_pyInsert_length]
  · simp [make_excel, excelLoop_agg, spec_total, catTotalsLoop_length]

/-- C2: on any uncaught exception at any pipeline step (staging failure at
step 1, renderer failure at step 5 — the only fallible steps), the
orchestrator stores the exception's message into `error`, `done` stays
false, and the already-mutated `step` field is not rolled back. -/
theorem process_files_exception_halts (env : ProcEnv) (files : List (String × ByteArray))
    (month applicant : String) (prior : JobStatus) (fmtP : Option String) :
    (∀ e, stageAll env files = .error e →
        process_files env files month applicant (analyze prior fmtP) =
          { analyze prior fmtP with step := 1, error := some e } ∧
        (process_files env files month applicant (analyze prior fmtP)).done = false) ∧
    (∀ e, stageAll env files = .ok () →
        env.renderIO (fmtP.getD "excel") = .error e →
        process_files env files month applicant (analyze prior fmtP) =
          { analyze prior fmtP with step := 5, error := some e } ∧
        (process_files env files month applicant (analyze prior fmtP)).done = false) := by
  constructor
  · intro e h
    have heq : process_files env files month applicant (analyze prior fmtP) =
        { analyze prior fmtP with step := 1, error := some e } := by
      simp [process_files, h]
    exact ⟨heq, by rw [heq]; rfl⟩
  · intro e h1 h2
    have heq : process_files env files month applicant (analyze prior fmtP) =
        { analyze prior fmtP with step := 5, error := some e } := by
      simp [process_files, h1, analyze, initStatus, h2]
    exact ⟨heq, by rw [heq]; rfl⟩

/-- C2 witness: a staging failure and a renderer failure, each on a
concrete job, produce the stated halted statuses. -/
theorem process_files_exception_halts_witness :
    (process_files ⟨fun _ _ => .error "disk full", fun _ => none, fun _ => .ok ()⟩
        [("a.jpg", ByteArray.empty)] "" "" (analyze initStatus none) =
      { analyze initStatus none with step := 1, error := some "disk full" }) ∧
    (process_files ⟨fun _ _ => .ok (), fun _ => none, fun _ => .error "render boom"⟩
        [("a.jpg", ByteArray.empty)] "" "" (analyze initStatus none) =
      { analyze initStatus none with step := 5, error := some "render boom" }) :=
  ⟨((process_files_exception_halts
      ⟨fun _ _ => .error "disk full", fun _ => none, fun _ => .ok ()⟩
      [("a.jpg", ByteArray.empty)] "" "" initStatus none).1 "disk full" rfl).1,
   ((process_files_exception_halts
      ⟨fun _ _ => .ok (), fun _ => none, fun _ => .error "render boom"⟩
      [("a.jpg", ByteArray.empty)] "" "" initStatus none).2 "render boom" rfl rfl).1⟩

/-- C3: the extraction adapter returns `none` immediately when the API key
is absent (or empty — Python falsiness), regardless of what the network
body would do; every exception in the body is converted to `none`; on a
successfully parsed body it returns the parse result.  It never raises:
its result type is `Option ExpenseRecord`, and the error constructor of
the body is mapped to `none`. -/
theorem read_receipt_no_raise :
    (∀ body, read_receipt_with_claude none body = none) ∧
    (∀ body, read_receipt_with_claude (some "") body = none) ∧
    (∀ apiKey e, read_receipt_with_claude apiKey (.error e) = none) ∧
    (∀ k r, k ≠ "" → read_receipt_with_claude (some k) (.ok r) = r) := by
  refine ⟨fun _ => rfl, fun _ => rfl, ?_, ?_⟩
  · intro apiKey e
    cases apiKey with
    | none => rfl
    | some k =>
        simp only [read_receipt_with_claude]
        split_ifs <;> rfl
  · intro k r hk
    simp [read_receipt_with_claude, hk]

/-- C3 witness: with a non-empty key and a successfully parsed body the
parse result is returned. -/
theorem read_receipt_no_raise_witness :
    read_receipt_with_claude (some "sk-test")
        (.ok (some (fallback_read "p" "x.jpg"))) = some (fallback_read "p" "x.jpg") :=
  read_receipt_no_raise.2.2.2 "sk-test" (some (fallback_read "p" "x.jpg")) (by decide)

/-- C6 counterexample: the claim says the fallback synthesizer is invoked
exactly for files whose extraction returned no-result (`None`), but the
orchestrator tests Python falsiness (`if not result`), so an extraction
that returns an *empty* record (`{}` parsed from the response) also
triggers the fallback: here `extract` returns a non-`None` result yet the
pipeline record is the fallback record, which differs from that result. -/
theorem fallback_on_empty_record_counterexample :
    (ProcEnv.mk (fun _ _ => .ok ()) (fun _ => some ⟨none, none, none, none, none, none⟩)
        (fun _ => .ok ())).extract "a.jpg" ≠ none ∧
    pipelineRecords
        (ProcEnv.mk (fun _ _ => .ok ()) (fun _ => some ⟨none, none, none, none, none, none⟩)
          (fun _ => .ok ())) [("a.jpg", ByteArray.empty)]
      = [fallback_read "uploads_temp/a.jpg" "a.jpg"] ∧
    fallback_read "uploads_temp/a.jpg" "a.jpg" ≠ (⟨none, none, none, none, none, none⟩ : ExpenseRecord) := by
  refine ⟨by decide, by decide, by decide⟩

/-- C6 (amended): every uploaded file yields exactly one expense record —
the fallback synthesizer is invoked exactly for those files whose
extraction result is falsy (`None` or an empty record) — so on a job that
completes without error the final `count` equals the number of uploaded
files. -/
theorem one_record_per_file (env : ProcEnv) (files : List (String × ByteArray))
    (month applicant : String) (st : JobStatus) :
    (stageAll env files = .ok () →
      env.renderIO (st.format.getD "excel") = .ok () →
      (process_files env files month applicant st).done = true ∧
      (process_files env files month applicant st).count = files.length) ∧
    (∀ name, recFalsy (env.extract name) = true →
        resolveRecord env name = fallback_read ("uploads_temp/" ++ name) name) ∧
    (∀ name r, env.extract name = some r → isEmptyRecord r = false →
        resolveRecord env name = r) ∧
    (pipelineRecords env files).length = files.length := by
  refine ⟨?_, ?_, ?_, ?_⟩
  · intro h1 h2
    constructor
    · simp [process_files, h1, h2]
    · simp [process_files, h1, h2, pipelineRecords]
  · intro name hf
    cases h : env.extract name with
    | none => simp [resolveRecord, h]
    | some r =>
        rw [h] at hf
        simp only [recFalsy] at hf
        simp [resolveRecord, h, hf]
  · intro name r h hr
    simp [resolveRecord, h, hr]
  · simp [pipelineRecords]

/-- C6 witness: a two-file job with extraction unavailable completes with
one record per file. -/
theorem one_record_per_file_witness :
    (process_files ⟨fun _ _ => .ok (), fun _ => none, fun _ => .ok ()⟩
        [("a.jpg", ByteArray.empty), ("b.png", ByteArray.empty)] "" "" initStatus).done = true ∧
    (process_files ⟨fun _ _ => .ok (), fun _ => none, fun _ => .ok ()⟩
        [("a.jpg", ByteArray.empty), ("b.png", ByteArray.empty)] "" "" initStatus).count =
      [("a.jpg", ByteArray.empty), ("b.png", ByteArray.empty)].length :=
  (one_record_per_file ⟨fun _ _ => .ok (), fun _ => none, fun _ => .ok ()⟩
    [("a.jpg", ByteArray.empty), ("b.png", ByteArray.empty)] "" "" initStatus).1 rfl rfl

/-- C7: the fallback synthesizer is deterministic (independent of the
unused image-path argument) and total; on `"cafe_receipt.jpg"` it yields
merchant `"cafe_receipt"`, and its date, amount, category, payment-method
and notes fields are fixed sentinel constants on every invocation. -/
theorem fallback_read_fixed_sentinels :
    fallback_read "uploads_temp/cafe_receipt.jpg" "cafe_receipt.jpg" =
      { merchant := some "cafe_receipt", date := some "2025/10/01", amount := some 1000,
        category := some "その他", payment := some "現金", notes := some "手動確認推奨" } ∧
    (∀ p₁ p₂ fn, fallback_read p₁ fn = fallback_read p₂ fn) ∧
    (∀ p fn, (fallback_read p fn).date = some "2025/10/01" ∧
             (fallback_read p fn).amount = some 1000 ∧
             (fallback_read p fn).category = some "その他" ∧
             (fallback_read p fn).payment = some "現金" ∧
             (fallback_read p fn).notes = some "手動確認推奨") :=
  ⟨by decide, fun _ _ _ => rfl, fun _ _ => ⟨rfl, rfl, rfl, rfl, rfl⟩⟩

/-- Each renderer returns `(0, 0)` aggregates on an empty record list. -/
lemma chooseRenderAgg_nil (fmt month applicant : String) :
    chooseRenderAgg fmt [] month applicant = (0, 0) := by
  unfold chooseRenderAgg
  split_ifs <;> rfl

/-- C8: a job with zero files runs to completion: `done=true`, `count=0`,
`total=0`, `categories=0`, and each renderer's artifact for the empty list
is headers/totals only (empty body). -/
theorem zero_files_job_completes (env : ProcEnv) (prior : JobStatus) (fmtP : Option String)
    (month applicant : String) :
    (env.renderIO (fmtP.getD "excel") = .ok () →
      process_files env [] month applicant (analyze prior fmtP) =
        { step := 5, done := true, error := none, count := 0, total := 0, categories := 0,
          format := some (fmtP.getD "excel") }) ∧
    (make_csv [] month applicant).rows =
      [[.str "No.", .str "店名", .str "日付", .str "カテゴリ", .str "金額（円）",
        .str "支払方法", .str "備考"],
       [.str "合計", .str "", .str "", .str "", .num 0, .str "", .str ""]] ∧
    (make_freee_csv [] month applicant).rows =
      [[.str "発生日", .str "借方勘定科目", .str "借方補助科目", .str "借方税区分",
        .str "借方金額", .str "貸方勘定科目", .str "貸方補助科目", .str "貸方税区分",
        .str "貸方金額", .str "摘要", .str "タグ", .str "メモ", .str "決済期日", .str "口座"]] ∧
    (make_pdf [] month applicant).rows =
      [[.str "No.", .str "店名", .str "日付", .str "カテゴリ", .str "金額（円）", .str "支払方法"],
       [.str "合計", .str "", .str "", .str "", .str "0", .str ""]] ∧
    (make_excel [] month applicant).bodyRows = [] ∧
    (make_excel [] month applicant).catSheet = [] := by
  refine ⟨?_, rfl, rfl, rfl, rfl, rfl⟩
  intro h
  simp [process_files, stageAll, pipelineRecords, analyze, initStatus, h, chooseRenderAgg_nil]

/-- C8 witness: a concrete zero-file job with the pdf format selected. -/
theorem zero_files_job_completes_witness :
    process_files ⟨fun _ _ => .ok (), fun _ => none, fun _ => .ok ()⟩ [] "" ""
        (analyze initStatus (some "pdf")) =
      { step := 5, done := true, error := none, count := 0, total := 0, categories := 0,
        format := some "pdf" } :=
  (zero_files_job_completes ⟨fun _ _ => .ok (), fun _ => none, fun _ => .ok ()⟩
    initStatus (some "pdf") "" "").1 rfl

/-- C9: every job submission unconditionally resets the shared status to
the fresh zero-state (then sets `format` from the request): the result is
independent of the prior status, so after a second submission the polled
status reflects only the second job. -/
theorem analyze_resets_status (prior₁ prior₂ : JobStatus) (fmtP : Option String) :
    analyze prior₁ fmtP = analyze prior₂ fmtP ∧
    (analyze prior₁ fmtP).step = 0 ∧
    (analyze prior₁ fmtP).done = false ∧
    (analyze prior₁ fmtP).error = none ∧
    (analyze prior₁ fmtP).count = 0 ∧
    (analyze prior₁ fmtP).total = 0 ∧
    (analyze prior₁ fmtP).categories = 0 ∧
    (analyze prior₁ fmtP).format = some (fmtP.getD "excel") :=
  ⟨rfl, rfl, rfl, rfl, rfl, rfl, rfl, rfl⟩

/-! ## Helper lemmas: classifier first-match -/

lemma guessFrom_append_first (text : String) :
    ∀ (pre : List (String × List String)) (cat : String) (kws : List String)
      (post : List (String × List String)),
      (∀ p ∈ pre, ∀ kw ∈ p.2, strContains text kw = false) →
      kws.any (fun kw => strContains text kw) = true →
      guessFrom text (pre ++ (cat, kws) :: post) = cat := by
  intro pre
  induction pre with
  | nil =>
      intro cat kws post _ hany
      simp [guessFrom, hany]
  | cons p pre ih =>
      intro cat kws post hpre hany
      obtain ⟨c0, k0⟩ := p
      have h0 : k0.any (fun kw => strContains text kw) = false := by
        rw [List.any_eq_false]
        intro kw hkw
        simp [hpre (c0, k0) (List.mem_cons_self _ _) kw hkw]
      simp only [List.cons_append, guessFrom, h0, Bool.false_eq_true, if_false]
      exact ih cat kws post (fun q hq => hpre q (List.mem_cons_of_mem _ hq)) hany

lemma guessFrom_no_match (text : String) :
    ∀ rules : List (String × List String),
      (∀ p ∈ rules, ∀ kw ∈ p.2, strContains text kw = false) →
      guessFrom text rules = "その他" := by
  intro rules
  induction rules with
  | nil => intro _; rfl
  | cons p rest ih =>
      intro h
      obtain ⟨c0, k0⟩ := p
      have h0 : k0.any (fun kw => strContains text kw) = false := by
        rw [List.any_eq_false]
        intro kw hkw
        simp [h (c0, k0) (List.mem_cons_self _ _) kw hkw]
      simp only [guessFrom, h0, Bool.false_eq_true, if_false]
      exact ih (fun q hq => h q (List.mem_cons_of_mem _ hq))

/-- C4: `guess_category` is total and deterministic, scans the rule set in
its defined order, and returns the first category one of whose keywords is
a case-sensitive substring of the text; if the text contains a keyword of
category C and no keyword of any earlier category it returns C; if no
keyword matches at all it returns the catch-all `"その他"`. -/
theorem guess_category_first_match (text : String) :
    (∀ (pre : List (String × List String)) (cat : String) (kws : List String)
        (post : List (String × List String)),
      CATEGORY_RULES = pre ++ (cat, kws) :: post →
      (∀ p ∈ pre, ∀ kw ∈ p.2, strContains text kw = false) →
      kws.any (fun kw => strContains text kw) = true →
      guess_category text = cat) ∧
    ((∀ p ∈ CATEGORY_RULES, ∀ kw ∈ p.2, strContains text kw = false) →
      guess_category text = "その他") := by
  constructor
  · intro pre cat kws post hrules hpre hany
    rw [guess_category, hrules]
    exact guessFrom_append_first text pre cat kws post hpre hany
  · intro h
    exact guessFrom_no_match text CATEGORY_RULES h

/-- C4 witness: "PICNIC" contains the 交通費 keyword "IC" (substring, not
word-boundary, match) and no 駐車場 keyword, so it classifies as 交通費;
a text containing no keyword at all yields the catch-all. -/
theorem guess_category_first_match_witness :
    guess_category "PICNIC" = "交通費" ∧ guess_category "該当なし" = "その他" :=
  ⟨(guess_category_first_match "PICNIC").1
      [("駐車場", ["パーキング", "駐車", "parking", "コインパーク"])]
      "交通費" ["電車", "バス", "タクシー", "新幹線", "乗車", "IC"]
      [ ("飲食費", ["レストラン", "カフェ", "食堂", "居酒屋", "ランチ", "コーヒー", "食事"]),
        ("宿泊費", ["ホテル", "旅館", "宿", "inn", "hotel"]),
        ("消耗品", ["コンビニ", "ドラッグ", "文具", "ローソン", "セブン", "ファミマ"]),
        ("通信費", ["ドコモ", "au", "ソフトバンク", "通信", "インターネット"]) ]
      rfl (by decide) (by decide),
   (guess_category_first_match "該当なし").2 (by decide)⟩

/-- C5: `extract_amount` tries the patterns in the fixed order 領収額,
現金, 合計, bare amount-with-`円`; the first pattern whose search succeeds
determines the result (commas stripped, parsed as an integer), and `0` is
returned when every pattern fails.  Concretely
`extract_amount "領収額 1,200円" = 1200`, and on a text with both a 合計
and a 現金 amount the 現金 pattern (earlier in priority order) wins. -/
theorem extract_amount_priority :
    extract_amount "領収額 1,200円" = 1200 ∧
    extract_amount "合計 500円 現金 300円" = 300 ∧
    (∀ text g, searchAux (matchLabeledAt "領収額".data) text.data = some g →
        extract_amount text = parseAmt g) ∧
    (∀ text g, searchAux (matchLabeledAt "領収額".data) text.data = none →
        searchAux (matchLabeledAt "現金".data) text.data = some g →
        extract_amount text = parseAmt g) ∧
    (∀ text g, searchAux (matchLabeledAt "領収額".data) text.data = none →
        searchAux (matchLabeledAt "現金".data) text.data = none →
        searchAux (matchLabeledAt "合計".data) text.data = some g →
        extract_amount text = parseAmt g) ∧
    (∀ text g, searchAux (matchLabeledAt "領収額".data) text.data = none →
        searchAux (matchLabeledAt "現金".data) text.data = none →
        searchAux (matchLabeledAt "合計".data) text.data = none →
        searchAux matchGroup text.data = some g →
        extract_amount text = parseAmt g) ∧
    (∀ text, searchAux (matchLabeledAt "領収額".data) text.data = none →
        searchAux (matchLabeledAt "現金".data) text.data = none →
        searchAux (matchLabeledAt "合計".data) text.data = none →
        searchAux matchGroup text.data = none →
        extract_amount text = 0) := by
  refine ⟨by decide, by decide, ?_, ?_, ?_, ?_, ?_⟩
  · intro text g h1
    simp [extract_amount, amountPatterns, extractLoop, h1]
  · intro text g h1 h2
    simp [extract_amount, amountPatterns, extractLoop, h1, h2]
  · intro text g h1 h2 h3
    simp [extract_amount, amountPatterns, extractLoop, h1, h2, h3]
  · intro text g h1 h2 h3 h4
    simp [extract_amount, amountPatterns, extractLoop, h1, h2, h3, h4]
  · intro text h1 h2 h3 h4
    simp [extract_amount, amountPatterns, extractLoop, h1, h2, h3, h4]

/-- C5 witness: the 現金 conjunct applied at a concrete text, and the
no-match conjunct applied at a text with no amount. -/
theorem extract_amount_priority_witness :
    extract_amount "現金 980円" = 980 ∧ extract_amount "なし" = 0 :=
  ⟨(extract_amount_priority.2.2.2.1 "現金 980円" ['9', '8', '0'] rfl rfl).trans (by decide),
   extract_amount_priority.2.2.2.2.2.2 "なし" rfl rfl rfl rfl⟩

/-! ## Helper lemmas: no pattern can capture a single-digit amount -/

lemma mem_takeWhile_isTrue (p : Char → Bool) :
    ∀ (l : List Char) (x : Char), x ∈ l.takeWhile p → p x = true := by
  intro l
  induction l with
  | nil => intro x hx; simp [List.takeWhile] at hx
  | cons c t ih =>
      intro x hx
      by_cases hc : p c
      · rw [List.takeWhile_cons, if_pos hc] at hx
        rcases List.mem_cons.mp hx with h | h
        · rwa [h]
        · exact ih x h
      · rw [List.takeWhile_cons, if_neg hc] at hx
        simp at hx

lemma dropWhile_eq_drop (p : Char → Bool) :
    ∀ l : List Char, ∃ n, l.dropWhile p = l.drop n := by
  intro l
  induction l with
  | nil => exact ⟨0, rfl⟩
  | cons c t ih =>
      by_cases hc : p c
      · obtain ⟨n, hn⟩ := ih
        exact ⟨n + 1, by rw [List.dropWhile_cons, if_pos hc, hn]; rfl⟩
      · exact ⟨0, by rw [List.dropWhile_cons, if_neg hc]; rfl⟩

lemma matchGroup_decomp (s g : List Char) (h : matchGroup s = some g) :
    ∃ (c : Char) (r rest : List Char),
      s = c :: (r ++ '円' :: rest) ∧ c.isDigit = true ∧ r ≠ [] ∧
      ∀ x ∈ r, isAmtChar x = true := by
  cases s with
  | nil => simp [matchGroup] at h
  | cons c restc =>
      simp only [matchGroup] at h
      by_cases hd : c.isDigit
      · rw [if_pos hd] at h
        by_cases hcond : (!(restc.takeWhile isAmtChar).isEmpty
            && (restc.dropWhile isAmtChar).head? == some '円') = true
        · have hrun : ¬ (restc.takeWhile isAmtChar).isEmpty := by
            intro hx
            simp [hx] at hcond
          have hhead : (restc.dropWhile isAmtChar).head? = some '円' := by
            have := (Bool.and_eq_true _ _).mp hcond
            exact eq_of_beq this.2
          cases hafter : restc.dropWhile isAmtChar with
          | nil => rw [hafter] at hhead; simp at hhead
          | cons a t =>
              rw [hafter] at hhead
              simp only [List.head?_cons, Option.some.injEq] at hhead
              refine ⟨c, restc.takeWhile isAmtChar, t, ?_, hd, ?_, ?_⟩
              · rw [← hhead, ← hafter, List.takeWhile_append_dropWhile]
              · intro hx; rw [hx] at hrun; simp at hrun
              · exact fun x hx => mem_takeWhile_isTrue isAmtChar restc x hx
        · rw [if_neg hcond] at h; cases h
      · rw [if_neg hd] at h; cases h

lemma matchLabeledAt_decomp (lit s : List Char) (g : List Char)
    (h : matchLabeledAt lit s = some g) :
    ∃ n, matchGroup (s.drop n) = some g := by
  unfold matchLabeledAt at h
  by_cases hp : lit.isPrefixOf s
  · rw [if_pos hp] at h
    obtain ⟨n, hn⟩ := dropWhile_eq_drop (fun c => !c.isDigit) (s.drop lit.length)
    rw [hn, List.drop_drop] at h
    exact ⟨lit.length + n, h⟩
  · rw [if_neg hp] at h; cases h

lemma searchAux_decomp (m : List Char → Option (List Char)) :
    ∀ (s : List Char) (g : List Char),
      searchAux m s = some g → ∃ n, m (s.drop n) = some g := by
  intro s
  induction s with
  | nil => intro g h; exact ⟨0, h⟩
  | cons c t ih =>
      intro g h
      simp only [searchAux] at h
      cases hm : m (c :: t) with
      | some g' =>
          rw [hm] at h
          have h2 : some g' = some g := h
          exact ⟨0, by rw [List.drop_zero, hm, Option.some.inj h2]⟩
      | none =>
          rw [hm] at h
          have h2 : searchAux m t = some g := h
          obtain ⟨n, hn⟩ := ih g h2
          exact ⟨n + 1, hn⟩

/-- C10: every pattern of `extract_amount` requires `\d[\d,]+` before the
currency marker, i.e. a digit followed by at least one further digit-or-
comma; so on a text in which no position carries such a two-or-more
character amount figure followed by `円`, `extract_amount` returns 0 —
one-digit amounts can never match. -/
theorem single_digit_amount_zero (text : String)
    (h : ¬ ∃ (a : List Char) (c : Char) (r rest : List Char),
        text.data = a ++ c :: (r ++ '円' :: rest) ∧ c.isDigit = true ∧ r ≠ [] ∧
        ∀ x ∈ r, isAmtChar x = true) :
    extract_amount text = 0 := by
  have hg : ∀ n, matchGroup (text.data.drop n) = none := by
    intro n
    cases hm : matchGroup (text.data.drop n) with
    | none => rfl
    | some g =>
        exfalso
        obtain ⟨c, r, rest, hs, hd, hr, hall⟩ := matchGroup_decomp _ _ hm
        refine h ⟨text.data.take n, c, r, rest, ?_, hd, hr, hall⟩
        conv_lhs => rw [← List.take_append_drop n text.data]
        rw [hs]
  have hlab : ∀ lit : List Char, searchAux (matchLabeledAt lit) text.data = none := by
    intro lit
    cases hS : searchAux (matchLabeledAt lit) text.data with
    | none => rfl
    | some g =>
        exfalso
        obtain ⟨n, hn⟩ := searchAux_decomp _ _ _ hS
        obtain ⟨k, hk⟩ := matchLabeledAt_decomp _ _ _ hn
        rw [List.drop_drop, hg] at hk
        cases hk
  have hbare : searchAux matchGroup text.data = none := by
    cases hS : searchAux matchGroup text.data with
    | none => rfl
    | some g =>
        exfalso
        obtain ⟨n, hn⟩ := searchAux_decomp _ _ _ hS
        rw [hg] at hn
        cases hn
  simp [extract_amount, amountPatterns, extractLoop, hlab, hbare]

/-- C10 witness: `"5円"` has only a single-digit amount, so the premise
holds (any required decomposition would need at least three characters)
and the extractor returns 0. -/
theorem single_digit_amount_zero_witness : extract_amount "5円" = 0 :=
  single_digit_amount_zero "5円" (by
    rintro ⟨a, c, r, rest, heq, _, hr, _⟩
    have hlen := congrArg List.length heq
    have h2 : "5円".data.length = 2 := rfl
    rw [h2] at hlen
    simp only [List.length_append, List.length_cons] at hlen
    have h3 : 0 < r.length := List.length_pos.mpr hr
    omega)

end KeihiAI
